import Mathlib

/-!
Verification of the backup scheduling and execution core of the repository
(worker/worker.py: `check_backups`; backend/app.py: `upload_file`,
`delete_file`) against its specification.

Shallow embedding conventions:
* A zoned timestamp is its absolute instant in seconds (`DateTime.sec`);
  aware-datetime comparison and timedelta arithmetic in Python are exactly
  comparison and addition of absolute seconds.  The configured timezone is
  the fixed UTC+3 offset used for Moscow, applied only by the `strftime`
  counterparts `fmtDate` / `fmtTime`.
* The JSON store is modelled parsed: a `TrackedFile` per element; the field
  names follow the Python dicts (`next_backup`, `backups_history`, ...).
* The filesystem is an oracle `fsExists : String → Bool` (os.path.exists)
  and a failure oracle `copyFails : String → Bool` (shutil.copy2 raising);
  both of the worker's per-entry failure points occur before any field of
  the entry is assigned, exactly as in the source.
* Copies and log lines are returned as data (`CopyAction`, `LogEvent`)
  rather than performed.
-/

/-- An absolute instant, in seconds since the Unix epoch.  Python's aware
datetimes compare and subtract by absolute instant, so this is all the
worker's due-check and timedelta arithmetic need. -/
structure DateTime where
  sec : Int
deriving DecidableEq, Repr

/-- Fixed UTC+3 offset: the `Europe/Moscow` zone used throughout the code. -/
def moscowOffset : Int := 3 * 3600

/-- Civil date (year, month, day) of a day count since 1970-01-01
(proleptic Gregorian), the standard days-to-civil conversion. -/
def civilFromDays (z0 : Int) : Int × Int × Int :=
  let z := z0 + 719468
  let era : Int := z / 146097
  let doe : Int := z - era * 146097
  let yoe : Int := (doe - doe / 1460 + doe / 36524 - doe / 146096) / 365
  let y : Int := yoe + era * 400
  let doy : Int := doe - (365 * yoe + yoe / 4 - yoe / 100)
  let mp : Int := (5 * doy + 2) / 153
  let d : Int := doy - (153 * mp + 2) / 5 + 1
  let m : Int := if mp < 10 then mp + 3 else mp - 9
  (if m ≤ 2 then y + 1 else y, m, d)

/-- Two-digit zero padding, as in `strftime`. -/
def pad2 (n : Int) : String :=
  if n < 10 then "0" ++ toString n.toNat else toString n.toNat

/-- Four-digit zero padding, as in `strftime` `%Y`. -/
def pad4 (n : Int) : String :=
  let s := toString n.toNat
  if s.length ≥ 4 then s else String.mk (List.replicate (4 - s.length) '0') ++ s

/-- `current_time.strftime("%Y-%m-%d")` for a Moscow-localized datetime. -/
def fmtDate (t : DateTime) : String :=
  let localSec := t.sec + moscowOffset
  let days := localSec / 86400
  let c := civilFromDays days
  pad4 c.1 ++ "-" ++ pad2 c.2.1 ++ "-" ++ pad2 c.2.2

/-- `current_time.strftime("%H-%M-%S")` for a Moscow-localized datetime. -/
def fmtTime (t : DateTime) : String :=
  let localSec := t.sec + moscowOffset
  let sod := localSec % 86400
  pad2 (sod / 3600) ++ "-" ++ pad2 (sod % 3600 / 60) ++ "-" ++ pad2 (sod % 60)

/-- Index of the last occurrence of `c` in `l`, or `-1` when absent:
Python's `str.rfind`. -/
def lastIdxOf (c : Char) (l : List Char) : Int :=
  match l.reverse.findIdx? (· = c) with
  | none => -1
  | some j => (l.length : Int) - 1 - (j : Int)

/-- `os.path.splitext` (posixpath): split at the last dot that lies after the
last separator and is preceded, within the basename, by some non-dot
character; otherwise the extension is empty. -/
def splitext (p : String) : String × String :=
  let l := p.toList
  let sepIndex := lastIdxOf '/' l
  let extIndex := lastIdxOf '.' l
  if extIndex > sepIndex then
    let hasStem := (List.range l.length).any fun i =>
      decide (sepIndex < (i : Int)) && decide ((i : Int) < extIndex) &&
        decide (l[i]? ≠ some '.')
    if hasStem then (String.mk (l.take extIndex.toNat), String.mk (l.drop extIndex.toNat))
    else (p, "")
  else (p, "")

/-- One element of `backups_history`, as appended by the worker. -/
structure BackupRecord where
  time : DateTime
  filename : String
  date : String
deriving DecidableEq, Repr

/-- One element of `data/files.json`, with the fields written by
`upload_file` and read/updated by `check_backups`. -/
structure TrackedFile where
  id : Nat
  filename : String
  path : String
  upload_date : DateTime
  period_value : Int
  period_unit : String
  next_backup : Option DateTime
  last_backup : Option DateTime
  backup_count : Nat
  backups_history : List BackupRecord
deriving DecidableEq, Repr

/-- The period-unit dispatch `current_time + timedelta(...)` that appears
identically in worker.py (lines 85-96) and backend/app.py (lines 95-104):
seconds/minutes/hours/days map to the corresponding timedelta and any other
unit falls through to `timedelta(hours=1)`. -/
def nextTime (current : DateTime) (period_value : Int) (period_unit : String) : DateTime :=
  if period_unit = "seconds" then ⟨current.sec + period_value⟩
  else if period_unit = "minutes" then ⟨current.sec + 60 * period_value⟩
  else if period_unit = "hours" then ⟨current.sec + 3600 * period_value⟩
  else if period_unit = "days" then ⟨current.sec + 86400 * period_value⟩
  else ⟨current.sec + 3600⟩

/-- A `shutil.copy2(src, dst)` performed by the worker, as data. -/
structure CopyAction where
  src : String
  dst : String
deriving DecidableEq, Repr

/-- The `log_message` lines the worker can emit, as data. -/
inductive LogEvent where
  | backupCreated (filename : String)
  | fileNotFound (filename : String)
  | entryError (filename : String)
  | tickError
deriving DecidableEq, Repr

/-- Result of processing one entry of the loop body of `check_backups`:
the (possibly updated) entry, the copy it performed if any, and the log
line it emitted if any.  The entry succeeded (and `updated` is set in the
source) exactly when `copied` is `some`. -/
structure EntryResult where
  file : TrackedFile
  copied : Option CopyAction
  log : Option LogEvent
deriving DecidableEq, Repr

/-- The body of the `for file in files` loop of `check_backups`
(worker.py lines 40-105).  An entry with null `next_backup` is skipped; a
due entry whose source is missing, or whose copy raises, is logged and left
unchanged (every mutation in the source occurs after `shutil.copy2`
returns); a successful copy sets `last_backup`, increments `backup_count`,
appends one history record and re-anchors `next_backup` at the tick's
`current_time`. -/
def processEntry (fsExists copyFails : String → Bool) (now : DateTime)
    (file : TrackedFile) : EntryResult :=
  match file.next_backup with
  | none => ⟨file, none, none⟩
  | some nb =>
    if nb.sec ≤ now.sec then
      if fsExists file.path then
        if copyFails file.path then ⟨file, none, some (.entryError file.filename)⟩
        else
          let backup_date := fmtDate now
          let timestamp := fmtTime now
          let original_name := (splitext file.filename).1
          let extension := (splitext file.filename).2
          let backup_name := original_name ++ "_" ++ timestamp ++ extension
          let dst := "backups/" ++ backup_date ++ "/" ++ backup_name
          ⟨{ file with
              last_backup := some now
              backup_count := file.backup_count + 1
              backups_history := file.backups_history ++ [⟨now, backup_name, backup_date⟩]
              next_backup := some (nextTime now file.period_value file.period_unit) },
            some ⟨file.path, dst⟩,
            some (.backupCreated file.filename)⟩
      else ⟨file, none, some (.fileNotFound file.filename)⟩
    else ⟨file, none, none⟩

/-- The whole `for` loop of one tick: every entry is processed exactly once
with the tick's single `current_time`. -/
def checkBackupsEntries (fsExists copyFails : String → Bool) (now : DateTime)
    (files : List TrackedFile) : List EntryResult :=
  files.map (processEntry fsExists copyFails now)

/-- The state of `data/files.json` as a tick sees it: absent, unparseable
(`json.load` raises, caught by the outer handler), or a parsed collection. -/
inductive StoreState where
  | missing
  | corrupt
  | ok (files : List TrackedFile)
deriving DecidableEq, Repr

/-- What one call of `check_backups` leaves behind: the persisted store
after the tick, whether the store was written (`updated` triggered the
`json.dump`), and the log lines of the tick. -/
structure TickResult where
  store : StoreState
  saved : Bool
  logs : List LogEvent
deriving DecidableEq, Repr

/-- `check_backups` (worker.py lines 29-112).  A missing store returns at
once; an unparseable store raises inside `json.load` and the outer handler
logs and returns without writing; otherwise the loop runs and the store is
rewritten only when `updated` is true. -/
def checkBackups (fsExists copyFails : String → Bool) (now : DateTime) :
    StoreState → TickResult
  | .missing => ⟨.missing, false, []⟩
  | .corrupt => ⟨.corrupt, false, [.tickError]⟩
  | .ok files =>
    let rs := checkBackupsEntries fsExists copyFails now files
    let updated := rs.any (·.copied.isSome)
    ⟨if updated then .ok (rs.map (·.file)) else .ok files, updated,
      rs.filterMap (·.log)⟩

/-- The polling loop: one `check_backups` per tick, each tick's store fed
to the next.  `check_backups` is total (every exception is caught inside
it), so the loop always reaches the next tick. -/
def runLoop (fsExists copyFails : String → Bool) (times : List DateTime)
    (s : StoreState) : StoreState :=
  times.foldl (fun st t => (checkBackups fsExists copyFails t st).store) s

/-- Outcome of a backend endpoint, as returned to the client. -/
inductive ApiResult where
  | ok (message : String)
  | error (message : String)
deriving DecidableEq, Repr

/-- `upload_file` (backend/app.py lines 72-134): validates the period
(seconds require `period_value ≥ 30`, every unit requires
`period_value ≥ 1`), then appends a fresh entry with
`id = len(files) + 1` and `next_backup = now + period`. -/
def upload_file (files : List TrackedFile) (filename : String)
    (period_value : Int) (period_unit : String) (now : DateTime) :
    List TrackedFile × ApiResult :=
  if period_unit = "seconds" ∧ period_value < 30 then
    (files, .error "Минимальный период для секунд: 30")
  else if period_value < 1 then
    (files, .error "Период должен быть не менее 1")
  else
    let file_path := "uploads/" ++ filename
    let file_id := files.length + 1
    let next_backup := nextTime now period_value period_unit
    (files ++ [⟨file_id, filename, file_path, now, period_value, period_unit,
        some next_backup, none, 0, []⟩],
      .ok "File uploaded")

/-- `delete_file` (backend/app.py lines 148-179): find the first entry with
the requested id; if none, report "File not found" and touch nothing;
otherwise remove the found entry's source file (second component) and drop
every entry with that id from the collection. -/
def delete_file (files : List TrackedFile) (file_id : Nat) :
    List TrackedFile × Option String × ApiResult :=
  match files.find? (fun f => f.id == file_id) with
  | none => (files, none, .error "File not found")
  | some f =>
    (files.filter (fun g => g.id != file_id), some f.path, .ok "File deleted")

/-- The store operations the backend exposes, for reachable-state
arguments: an upload (with its request parameters and time) or a delete. -/
inductive StoreOp where
  | upload (filename : String) (period_value : Int) (period_unit : String) (now : DateTime)
  | delete (file_id : Nat)

/-- Apply one backend operation to the collection. -/
def applyOp (files : List TrackedFile) : StoreOp → List TrackedFile
  | .upload fn pv pu now => (upload_file files fn pv pu now).1
  | .delete i => (delete_file files i).1

/-- Apply a sequence of backend operations to the collection. -/
def runOps (files : List TrackedFile) (ops : List StoreOp) : List TrackedFile :=
  ops.foldl applyOp files

/-- Parse a raw store content: unparseable content loads as `corrupt`. -/
def loadStore : Option (List TrackedFile) → StoreState
  | none => .corrupt
  | some fs => .ok fs

/-- The sequence of store contents observable by a concurrent reader while
`save` runs.  The source persists with `open(FILES_JSON, "w")` followed by
`json.dump`: opening with mode "w" truncates `data/files.json` in place, so
between the open and the completed dump the file holds unparseable content
(modelled `none`); there is no write-to-temporary-then-rename step. -/
def saveTrace (pre : Option (List TrackedFile)) (entries : List TrackedFile) :
    List (Option (List TrackedFile)) :=
  [pre, none, some entries]

/-! ### Helper lemmas about one entry's processing -/

/-- A due entry whose source is missing, or whose copy raises, is left
unchanged and performs no copy. -/
theorem processEntry_fail (e c : String → Bool) (now : DateTime) (f : TrackedFile)
    (h : e f.path = false ∨ c f.path = true) :
    (processEntry e c now f).file = f ∧ (processEntry e c now f).copied = none := by
  unfold processEntry
  rcases hnb : f.next_backup with _ | nb
  · exact ⟨rfl, rfl⟩
  · by_cases hd : nb.sec ≤ now.sec
    · rcases h with h | h
      · simp [hd, h]
      · by_cases he : e f.path <;> simp [hd, he, h]
    · simp [hd]

/-- A due entry with an existing source and a non-raising copy is updated
exactly as the success branch of the loop body writes it. -/
theorem processEntry_success (e c : String → Bool) (now nb : DateTime) (f : TrackedFile)
    (hdue : f.next_backup = some nb) (hle : nb.sec ≤ now.sec)
    (hex : e f.path = true) (hcp : c f.path = false) :
    processEntry e c now f =
      ⟨{ f with
          last_backup := some now
          backup_count := f.backup_count + 1
          backups_history := f.backups_history ++
            [⟨now, (splitext f.filename).1 ++ "_" ++ fmtTime now ++ (splitext f.filename).2,
              fmtDate now⟩]
          next_backup := some (nextTime now f.period_value f.period_unit) },
        some ⟨f.path, "backups/" ++ fmtDate now ++ "/" ++
          ((splitext f.filename).1 ++ "_" ++ fmtTime now ++ (splitext f.filename).2)⟩,
        some (.backupCreated f.filename)⟩ := by
  unfold processEntry
  rw [hdue]
  simp [hle, hex, hcp]

/-- Each entry either comes out of the loop body untouched with no copy, or
with a copy performed, `backup_count` up by one and exactly one history
record appended. -/
theorem processEntry_cases (e c : String → Bool) (now : DateTime) (f : TrackedFile) :
    ((processEntry e c now f).file = f ∧ (processEntry e c now f).copied = none) ∨
    ((processEntry e c now f).copied.isSome = true ∧
      (processEntry e c now f).file.backup_count = f.backup_count + 1 ∧
      (processEntry e c now f).file.backups_history.length = f.backups_history.length + 1) := by
  unfold processEntry
  rcases hnb : f.next_backup with _ | nb
  · exact Or.inl ⟨rfl, rfl⟩
  · by_cases hd : nb.sec ≤ now.sec
    · by_cases he : e f.path
      · by_cases hc : c f.path
        · exact Or.inl (by simp [hd, he, hc])
        · exact Or.inr (by simp [hd, he, hc])
      · exact Or.inl (by simp [hd, he])
    · exact Or.inl (by simp [hd])

/-- An entry performed a copy exactly when its stored fields changed. -/
theorem processEntry_changed (e c : String → Bool) (now : DateTime) (f : TrackedFile) :
    (processEntry e c now f).copied.isSome = true ↔ (processEntry e c now f).file ≠ f := by
  rcases processEntry_cases e c now f with ⟨h1, h2⟩ | ⟨h1, h2, _⟩
  · simp [h1, h2]
  · simp only [h1, true_iff]
    intro heq
    rw [heq] at h2
    omega

/-! ### Claim theorems -/

/-- C1: for every due entry successfully backed up during a tick, the new
`next_backup` equals the tick's single `current_time` plus the duration
given by `(period_value, period_unit)` — seconds/minutes/hours/days mapped
to the corresponding timedelta and any unrecognized unit mapped to one
hour — and exactly one backup (one history record) is produced for the
entry in that tick, no matter how far in the past `next_backup` lay. -/
theorem due_entry_reschedules_from_tick_time (e c : String → Bool) (now nb : DateTime)
    (f : TrackedFile) (hdue : f.next_backup = some nb) (hle : nb.sec ≤ now.sec)
    (hex : e f.path = true) (hcp : c f.path = false) :
    (processEntry e c now f).file.next_backup =
      some ⟨now.sec +
        (if f.period_unit = "seconds" then f.period_value
         else if f.period_unit = "minutes" then 60 * f.period_value
         else if f.period_unit = "hours" then 3600 * f.period_value
         else if f.period_unit = "days" then 86400 * f.period_value
         else 3600)⟩ ∧
    (processEntry e c now f).file.backups_history.length =
      f.backups_history.length + 1 := by
  rw [processEntry_success e c now nb f hdue hle hex hcp]
  refine ⟨?_, by simp⟩
  simp only [nextTime]
  split_ifs <;> rfl

/-- Witness for C1 at a concrete entry whose `next_backup` lies 1000
seconds in the past, with a 5-minute period. -/
def c1File : TrackedFile :=
  ⟨1, "report.txt", "uploads/report.txt", ⟨0⟩, 5, "minutes", some ⟨0⟩, none, 0, []⟩

theorem due_entry_reschedules_from_tick_time_witness :
    (processEntry (fun _ => true) (fun _ => false) ⟨1000⟩ c1File).file.next_backup =
      some ⟨1300⟩ ∧
    (processEntry (fun _ => true) (fun _ => false) ⟨1000⟩ c1File).file.backups_history.length =
      c1File.backups_history.length + 1 := by
  have h := due_entry_reschedules_from_tick_time (fun _ => true) (fun _ => false)
    ⟨1000⟩ ⟨0⟩ c1File rfl (by decide) rfl rfl
  exact ⟨h.1.trans (by decide), h.2⟩

/-- C5: a due entry with an existing source is copied to
`backups/{YYYY-MM-DD of current_time}/{stem}_{HH-MM-SS}{ext}` (stem and
extension from splitting the entry's filename, time-of-day of the same
`current_time`), gets `last_backup = current_time`, and has the record
`{time: current_time, archive_name, date_bucket}` appended to its
history with exactly the name and bucket just used. -/
theorem executed_copy_path_and_record (e c : String → Bool) (now nb : DateTime)
    (f : TrackedFile) (hdue : f.next_backup = some nb) (hle : nb.sec ≤ now.sec)
    (hex : e f.path = true) (hcp : c f.path = false) :
    (processEntry e c now f).copied =
      some ⟨f.path, "backups/" ++ fmtDate now ++ "/" ++ (splitext f.filename).1 ++
        "_" ++ fmtTime now ++ (splitext f.filename).2⟩ ∧
    (processEntry e c now f).file.last_backup = some now ∧
    (processEntry e c now f).file.backups_history =
      f.backups_history ++
        [⟨now, (splitext f.filename).1 ++ "_" ++ fmtTime now ++ (splitext f.filename).2,
          fmtDate now⟩] := by
  rw [processEntry_success e c now nb f hdue hle hex hcp]
  refine ⟨?_, rfl, rfl⟩
  simp [String.append_assoc]

/-- Witness for C5: at Moscow time 2025-10-09 11:53:20 the concrete entry
is archived as `backups/2025-10-09/report_11-53-20.txt`. -/
def c5File : TrackedFile :=
  ⟨1, "report.txt", "uploads/report.txt", ⟨0⟩, 1, "hours", some ⟨0⟩, none, 0, []⟩

theorem executed_copy_path_and_record_witness :
    (processEntry (fun _ => true) (fun _ => false) ⟨1760000000⟩ c5File).copied =
      some ⟨"uploads/report.txt", "backups/2025-10-09/report_11-53-20.txt"⟩ ∧
    (processEntry (fun _ => true) (fun _ => false) ⟨1760000000⟩ c5File).file.last_backup =
      some ⟨1760000000⟩ ∧
    (processEntry (fun _ => true) (fun _ => false) ⟨1760000000⟩ c5File).file.backups_history =
      [⟨⟨1760000000⟩, "report_11-53-20.txt", "2025-10-09"⟩] := by
  have h := executed_copy_path_and_record (fun _ => true) (fun _ => false)
    ⟨1760000000⟩ ⟨0⟩ c5File rfl (by decide) rfl rfl
  exact ⟨h.1.trans (by decide), h.2.1, h.2.2.trans (by decide)⟩

/-- C7: a tick that finds the persisted collection unparseable logs the
failure, writes nothing (the store is untouched and `save` is not
invoked), and the polling loop goes on to later ticks unharmed. -/
theorem corrupt_store_skips_tick (e c : String → Bool) (now : DateTime)
    (times : List DateTime) :
    checkBackups e c now .corrupt = ⟨.corrupt, false, [.tickError]⟩ ∧
    runLoop e c times .corrupt = .corrupt := by
  refine ⟨rfl, ?_⟩
  induction times with
  | nil => rfl
  | cons t ts ih => simpa [runLoop, List.foldl_cons] using ih

/-- The tick's `saved` flag is the loop's `updated` flag: some entry
performed a copy. -/
theorem checkBackups_saved_eq (e c : String → Bool) (now : DateTime)
    (files : List TrackedFile) :
    (checkBackups e c now (.ok files)).saved =
      (checkBackupsEntries e c now files).any (·.copied.isSome) := rfl

/-- The tick saves exactly when some entry performed a copy. -/
theorem checkBackups_saved_iff (e c : String → Bool) (now : DateTime)
    (files : List TrackedFile) :
    (checkBackups e c now (.ok files)).saved = true ↔
      ∃ f ∈ files, (processEntry e c now f).copied.isSome = true := by
  simp [checkBackups, checkBackupsEntries, List.any_map, List.any_eq_true,
    Function.comp]

/-- A tick in which some entry succeeded writes the mapped collection. -/
theorem checkBackups_run_true (e c : String → Bool) (now : DateTime)
    (files : List TrackedFile)
    (h : (checkBackupsEntries e c now files).any (·.copied.isSome) = true) :
    checkBackups e c now (.ok files) =
      ⟨.ok ((checkBackupsEntries e c now files).map (·.file)), true,
        (checkBackupsEntries e c now files).filterMap (·.log)⟩ := by
  simp only [checkBackups, h]
  simp

/-- A tick in which no entry succeeded does not write. -/
theorem checkBackups_run_false (e c : String → Bool) (now : DateTime)
    (files : List TrackedFile)
    (h : (checkBackupsEntries e c now files).any (·.copied.isSome) = false) :
    checkBackups e c now (.ok files) =
      ⟨.ok files, false, (checkBackupsEntries e c now files).filterMap (·.log)⟩ := by
  simp only [checkBackups, h]
  simp

/-- C2: in a tick over a collection, a failure on the entry at position
`i` (missing source or an exception during its processing) leaves that
entry unchanged, every other entry is still processed exactly as it would
be on its own, the tick persists whenever some entry succeeded, and the
persisted collection then carries all the successful updates. -/
theorem entry_failure_isolated (e c : String → Bool) (now : DateTime)
    (files : List TrackedFile) (i : Nat) (hi : i < files.length)
    (hfail : e files[i].path = false ∨ c files[i].path = true) :
    ((checkBackupsEntries e c now files).map (·.file))[i]? = some files[i] ∧
    (∀ j, j ≠ i → ((checkBackupsEntries e c now files).map (·.file))[j]? =
      (files[j]?).map (fun g => (processEntry e c now g).file)) ∧
    ((checkBackups e c now (.ok files)).saved = true ↔
      ∃ f ∈ files, (processEntry e c now f).copied.isSome = true) ∧
    ((checkBackups e c now (.ok files)).saved = true →
      (checkBackups e c now (.ok files)).store =
        .ok ((checkBackupsEntries e c now files).map (·.file))) := by
  refine ⟨?_, ?_, ?_, ?_⟩
  · have hunch := (processEntry_fail e c now files[i] hfail).1
    simp [checkBackupsEntries, List.getElem?_map, List.getElem?_eq_getElem hi, hunch]
  · intro j _
    simp only [checkBackupsEntries, List.getElem?_map]
    cases files[j]? <;> rfl
  · exact checkBackups_saved_iff e c now files
  · intro hsaved
    have hany : (checkBackupsEntries e c now files).any (·.copied.isSome) = true :=
      (checkBackups_saved_eq e c now files).symm.trans hsaved
    rw [checkBackups_run_true e c now files hany]

/-- Witness for C2: two due entries; the first one's source is missing,
the second one's exists — the first is untouched and the tick still saves. -/
def c2FileA : TrackedFile :=
  ⟨1, "a.txt", "uploads/a.txt", ⟨0⟩, 1, "hours", some ⟨0⟩, none, 0, []⟩

def c2FileB : TrackedFile :=
  ⟨2, "b.txt", "uploads/b.txt", ⟨0⟩, 1, "hours", some ⟨0⟩, none, 0, []⟩

def c2Exists : String → Bool := fun p => p == "uploads/b.txt"

theorem entry_failure_isolated_witness :
    ((checkBackupsEntries c2Exists (fun _ => false) ⟨1000⟩ [c2FileA, c2FileB]).map
        (·.file))[0]? = some c2FileA ∧
    (checkBackups c2Exists (fun _ => false) ⟨1000⟩ (.ok [c2FileA, c2FileB])).saved = true := by
  have h := entry_failure_isolated c2Exists (fun _ => false) ⟨1000⟩ [c2FileA, c2FileB]
    0 (by decide) (Or.inl (by decide))
  exact ⟨h.1, h.2.2.1.mpr ⟨c2FileB, by simp, by decide⟩⟩

/-- C6: the tick writes the store exactly when at least one entry changed
during it; when nothing changed the persisted collection stays untouched. -/
theorem tick_saves_iff_changed (e c : String → Bool) (now : DateTime)
    (files : List TrackedFile) :
    ((checkBackups e c now (.ok files)).saved = true ↔
      ∃ f ∈ files, (processEntry e c now f).file ≠ f) ∧
    ((checkBackups e c now (.ok files)).saved = false →
      (checkBackups e c now (.ok files)).store = .ok files) := by
  constructor
  · rw [checkBackups_saved_iff]
    constructor
    · rintro ⟨f, hf, hsome⟩
      exact ⟨f, hf, (processEntry_changed e c now f).mp hsome⟩
    · rintro ⟨f, hf, hne⟩
      exact ⟨f, hf, (processEntry_changed e c now f).mpr hne⟩
  · intro hsaved
    have hany : (checkBackupsEntries e c now files).any (·.copied.isSome) = false :=
      (checkBackups_saved_eq e c now files).symm.trans hsaved
    rw [checkBackups_run_false e c now files hany]

/-- The per-entry `backup_count == len(history)` invariant survives the
loop body of a tick. -/
theorem entries_preserve_count_inv (e c : String → Bool) (now : DateTime)
    (files : List TrackedFile)
    (h : ∀ f ∈ files, f.backup_count = f.backups_history.length) :
    ∀ r ∈ checkBackupsEntries e c now files,
      r.file.backup_count = r.file.backups_history.length := by
  intro r hr
  simp only [checkBackupsEntries, List.mem_map] at hr
  obtain ⟨f, hf, rfl⟩ := hr
  rcases processEntry_cases e c now f with ⟨h1, _⟩ | ⟨_, h2, h3⟩
  · rw [h1]; exact h f hf
  · rw [h2, h3, h f hf]

/-- C4: if `backup_count = length(history)` holds for every entry before a
tick, it holds for every entry after the tick and in whatever collection
the tick persists; each successful execution appends exactly one record
and adds exactly one to `backup_count`, and a non-successful pass leaves
both fields (indeed the whole entry) unchanged. -/
theorem backup_count_matches_history (e c : String → Bool) (now : DateTime)
    (files : List TrackedFile)
    (h : ∀ f ∈ files, f.backup_count = f.backups_history.length) :
    (∀ r ∈ checkBackupsEntries e c now files,
      r.file.backup_count = r.file.backups_history.length) ∧
    (∀ f : TrackedFile,
      ((processEntry e c now f).file = f ∧ (processEntry e c now f).copied = none) ∨
      ((processEntry e c now f).file.backup_count = f.backup_count + 1 ∧
        (processEntry e c now f).file.backups_history.length =
          f.backups_history.length + 1)) ∧
    (∀ fs', (checkBackups e c now (.ok files)).store = .ok fs' →
      ∀ g ∈ fs', g.backup_count = g.backups_history.length) := by
  refine ⟨entries_preserve_count_inv e c now files h, ?_, ?_⟩
  · intro f
    rcases processEntry_cases e c now f with ⟨h1, h2⟩ | ⟨_, h2, h3⟩
    · exact Or.inl ⟨h1, h2⟩
    · exact Or.inr ⟨h2, h3⟩
  · intro fs' hst g hg
    rcases hany : (checkBackupsEntries e c now files).any (·.copied.isSome) with _ | _
    · rw [checkBackups_run_false e c now files hany] at hst
      simp only [StoreState.ok.injEq] at hst
      subst hst
      exact h g hg
    · rw [checkBackups_run_true e c now files hany] at hst
      simp only [StoreState.ok.injEq] at hst
      subst hst
      simp only [List.mem_map] at hg
      obtain ⟨r, hr, rfl⟩ := hg
      exact entries_preserve_count_inv e c now files h r hr

/-- Witness for C4 on a concrete one-entry store satisfying the invariant. -/
def c4File : TrackedFile :=
  ⟨1, "notes.md", "uploads/notes.md", ⟨0⟩, 2, "days", some ⟨500⟩, none, 3,
    [⟨⟨100⟩, "notes_x.md", "d"⟩, ⟨⟨200⟩, "notes_y.md", "d"⟩, ⟨⟨300⟩, "notes_z.md", "d"⟩]⟩

theorem backup_count_matches_history_witness :
    (processEntry (fun _ => true) (fun _ => false) ⟨1000⟩ c4File).file.backup_count =
      (processEntry (fun _ => true) (fun _ => false) ⟨1000⟩
        c4File).file.backups_history.length := by
  exact (backup_count_matches_history (fun _ => true) (fun _ => false) ⟨1000⟩ [c4File]
    (by decide)).1 (processEntry (fun _ => true) (fun _ => false) ⟨1000⟩ c4File)
    (by simp [checkBackupsEntries])

/-- C8: registration is rejected — an error is returned and no entry is
created — whenever `period_value < 1`, and additionally whenever
`period_unit` is seconds and `period_value < 30`. -/
theorem register_rejects_short_period (files : List TrackedFile) (filename : String)
    (pv : Int) (pu : String) (now : DateTime)
    (h : pv < 1 ∨ (pu = "seconds" ∧ pv < 30)) :
    (upload_file files filename pv pu now).1 = files ∧
    ∃ msg, (upload_file files filename pv pu now).2 = .error msg := by
  unfold upload_file
  rcases h with h | ⟨h1, h2⟩
  · by_cases hs : pu = "seconds" ∧ pv < 30
    · rw [if_pos hs]
      exact ⟨rfl, _, rfl⟩
    · rw [if_neg hs, if_pos h]
      exact ⟨rfl, _, rfl⟩
  · rw [if_pos ⟨h1, h2⟩]
    exact ⟨rfl, _, rfl⟩

/-- Witness for C8: registering with `period_unit=seconds`,
`period_value=10` is rejected and the collection stays empty. -/
theorem register_rejects_short_period_witness :
    (upload_file [] "f.txt" 10 "seconds" ⟨0⟩).1 = [] ∧
    ∃ msg, (upload_file [] "f.txt" 10 "seconds" ⟨0⟩).2 = .error msg := by
  exact register_rejects_short_period [] "f.txt" 10 "seconds" ⟨0⟩
    (Or.inr ⟨rfl, by decide⟩)

/-- C10: deleting an id that matches no entry returns the "File not found"
error and changes neither the collection nor any source file; deleting a
matching id succeeds, drops every entry carrying that id (and no other),
and removes the matched (first such) entry's source file. -/
theorem delete_semantics (files : List TrackedFile) (fid : Nat) :
    ((∀ f ∈ files, f.id ≠ fid) →
      delete_file files fid = (files, none, .error "File not found")) ∧
    (∀ f, files.find? (fun g => g.id == fid) = some f →
      (delete_file files fid).2.2 = .ok "File deleted" ∧
      f ∈ files ∧ f.id = fid ∧
      (delete_file files fid).2.1 = some f.path ∧
      (∀ g ∈ (delete_file files fid).1, g.id ≠ fid) ∧
      (∀ g ∈ files, g.id ≠ fid → g ∈ (delete_file files fid).1)) := by
  constructor
  · intro hnone
    unfold delete_file
    have hfind : files.find? (fun g => g.id == fid) = none := by
      rw [List.find?_eq_none]
      intro x hx
      simpa using hnone x hx
    rw [hfind]
  · intro f hf
    have hmem := List.mem_of_find?_eq_some hf
    have hid : f.id = fid := by simpa using List.find?_some hf
    unfold delete_file
    rw [hf]
    refine ⟨rfl, hmem, hid, rfl, ?_, ?_⟩
    · intro g hg
      have := (List.mem_filter.mp hg).2
      simpa using this
    · intro g hg hgid
      exact List.mem_filter.mpr ⟨hg, by simpa using hgid⟩

/-- Witness for C10: with one entry of id 1, deleting id 2 reports the
error and leaves everything alone; deleting id 1 succeeds and removes the
entry and its source path. -/
def c10File : TrackedFile :=
  ⟨1, "a.txt", "uploads/a.txt", ⟨0⟩, 1, "hours", some ⟨3600⟩, none, 0, []⟩

theorem delete_semantics_witness :
    delete_file [c10File] 2 = ([c10File], none, .error "File not found") ∧
    (delete_file [c10File] 1).2.1 = some "uploads/a.txt" ∧
    (∀ g ∈ (delete_file [c10File] 1).1, g.id ≠ 1) := by
  refine ⟨(delete_semantics [c10File] 2).1 (by decide), ?_, ?_⟩
  · exact ((delete_semantics [c10File] 1).2 c10File (by decide)).2.2.2.1
  · exact ((delete_semantics [c10File] 1).2 c10File (by decide)).2.2.2.2.1

/-- C3 counterexample input: upload `a.txt` (gets id 1), upload `b.txt`
(gets id 2), delete id 1, upload `c.txt`.  `upload_file` assigns
`id = len(files) + 1`, which after the deletion is 2 again. -/
def idOps : List StoreOp :=
  [.upload "a.txt" 1 "hours" ⟨0⟩, .upload "b.txt" 1 "hours" ⟨0⟩,
    .delete 1, .upload "c.txt" 1 "hours" ⟨0⟩]

/-- C3: the id-uniqueness/never-reused invariant fails on the code: after
the `idOps` sequence the reachable store holds two entries that both carry
id 2, the later-created entry having been given the deleted-then-freed
length-based id. -/
theorem id_reused_after_delete :
    (runOps [] idOps).map (·.id) = [2, 2] ∧
    ¬ ((runOps [] idOps).map (·.id)).Nodup ∧
    (runOps [] idOps).map (·.filename) = ["b.txt", "c.txt"] := by
  refine ⟨by decide, by decide, by decide⟩

/-- C9: the persisted-store replacement performed by a tick's save is not
atomic for concurrent readers: during every save over a previously parseable
store, a reader can observe a store content that parses as `StoreCorrupt`
and is neither the pre-save nor the post-save collection — the truncated
file left by `open(FILES_JSON, "w")` before `json.dump` completes. -/
theorem save_truncation_observable (old entries : List TrackedFile) :
    ∃ s ∈ saveTrace (some old) entries,
      loadStore s = .corrupt ∧ s ≠ some old ∧ s ≠ some entries := by
  exact ⟨none, by simp [saveTrace], rfl, by simp, by simp⟩

/-- Witness files for C6: one due entry (the tick saves) and one idle
entry (the tick leaves the persisted store untouched). -/
def c6File : TrackedFile :=
  ⟨1, "a.txt", "uploads/a.txt", ⟨0⟩, 1, "hours", some ⟨0⟩, none, 0, []⟩

def c6Idle : TrackedFile :=
  ⟨1, "a.txt", "uploads/a.txt", ⟨0⟩, 1, "hours", some ⟨2000⟩, none, 0, []⟩

theorem tick_saves_iff_changed_witness :
    (checkBackups (fun _ => true) (fun _ => false) ⟨1000⟩ (.ok [c6File])).saved = true ∧
    (checkBackups (fun _ => true) (fun _ => false) ⟨1000⟩ (.ok [c6Idle])).store =
      .ok [c6Idle] := by
  constructor
  · exact (tick_saves_iff_changed (fun _ => true) (fun _ => false) ⟨1000⟩
      [c6File]).1.mpr ⟨c6File, by simp, by decide⟩
  · exact (tick_saves_iff_changed (fun _ => true) (fun _ => false) ⟨1000⟩
      [c6Idle]).2 (by decide)
